import Mathlib

/-!
Shallow embedding of the `cpd_dataset` package (change-point-detection
dataset generator) and verification of its specification claims.

Python values appearing in configs are modelled by the inductive `PyVal`;
Python exceptions by `PyErr`; fallible Python code returns `Except PyErr α`.
Python floats are modelled exactly by rationals (`ℚ`): no claim below
depends on binary rounding, only on comparisons and on the fact that
`float(str(x)) == x`, which the model captures with the `PyVal.floatStr`
constructor for the string produced by `str` on a float.
-/

set_option maxHeartbeats 1000000

/-- A Python exception, tagged with its class and message. -/
inductive PyErr where
  | typeError (msg : String)
  | valueError (msg : String)
  | keyError (key : String)
  | attributeError (attr : String)
  | assertionError
deriving DecidableEq, Repr

/-- A Python value as it appears in a deserialized YAML config or in a
distribution's parameter mapping.  `floatStr q` is the string `str(x)`
for the float modelled by `q`; it is a string at the type level
(`isinstance(·, str)` holds) and converts back to `q` under `float`. -/
inductive PyVal where
  | none
  | int (n : ℤ)
  | str (s : String)
  | floatStr (q : ℚ)
  | list (xs : List PyVal)
  | dict (kvs : List (String × PyVal))
deriving Repr

/-- The Python types the config validator tests with `isinstance`. -/
inductive PyType where
  | int
  | str
  | list
  | dict
deriving DecidableEq, Repr

/-- `isinstance(v, t)` for the types used by the validator. -/
def isinstance : PyVal → PyType → Bool
  | .int _, .int => true
  | .str _, .str => true
  | .floatStr _, .str => true
  | .list _, .list => true
  | .dict _, .dict => true
  | _, _ => false

/-- Python truthiness of a value (`bool(v)`), as used by `if not v`. -/
def truthy : PyVal → Bool
  | .none => false
  | .int n => n ≠ 0
  | .str s => s ≠ ""
  | .floatStr _ => true
  | .list xs => ¬ xs.isEmpty
  | .dict kvs => ¬ kvs.isEmpty

/-- Parse the digits of a decimal literal; `none` on empty or non-digit. -/
def parseNatDigits (cs : List Char) : Option ℕ :=
  if cs.isEmpty ∨ ¬ cs.all Char.isDigit then Option.none
  else Option.some (cs.foldl (fun a c => 10 * a + (c.toNat - 48)) 0)

/-- Decimal fragment of Python's `float(s)` string parsing: an optional
sign, then digits with an optional fractional part. -/
def parseDec (s : String) : Option ℚ :=
  let cs := s.toList
  let sgn : ℚ := if cs.head? = Option.some '-' then -1 else 1
  let cs2 := match cs with
    | '-' :: r => r
    | '+' :: r => r
    | r => r
  let ip := cs2.takeWhile (fun c => c ≠ '.')
  match cs2.dropWhile (fun c => c ≠ '.') with
  | [] =>
    match parseNatDigits ip with
    | Option.some n => Option.some (sgn * n)
    | Option.none => Option.none
  | _ :: fp =>
    if (ip.isEmpty ∧ fp.isEmpty) ∨ ¬ ip.all Char.isDigit ∨ ¬ fp.all Char.isDigit then
      Option.none
    else
      let iv : ℚ := (ip.foldl (fun a c => 10 * a + (c.toNat - 48)) 0 : ℕ)
      let fv : ℚ := ((fp.foldl (fun a c => 10 * a + (c.toNat - 48)) 0 : ℕ) : ℚ) / ((10 : ℚ) ^ fp.length)
      Option.some (sgn * (iv + fv))

/-- Python's `float(v)`: floats round-trip through `str`, decimal string
literals are parsed, ints are widened, other values raise `TypeError`. -/
def pyFloat : PyVal → Except PyErr ℚ
  | .floatStr q => .ok q
  | .str s =>
    match parseDec s with
    | Option.some q => .ok q
    | Option.none => .error (.valueError "could not convert string to float")
  | .int n => .ok (n : ℚ)
  | _ => .error (.typeError "float() argument must be a string or a real number")

/-- Python's `d[k]` on a dict: the value at `k`, or `KeyError`. -/
def dictGet (d : List (String × PyVal)) (k : String) : Except PyErr PyVal :=
  match d.find? (fun kv => kv.1 = k) with
  | Option.some kv => .ok kv.2
  | Option.none => .error (.keyError k)

/-- Python's `d.get(k, None)` on a dict. -/
def pyGet (d : List (String × PyVal)) (k : String) : PyVal :=
  match d.find? (fun kv => kv.1 = k) with
  | Option.some kv => kv.2
  | Option.none => .none

/-- `NormalDistribution` from `distributions.py`: mean and variance. -/
structure NormalDistribution where
  mean : ℚ
  variance : ℚ
deriving DecidableEq, Repr

/-- `NormalDistribution.name` (`str(Distributions.NORMAL)`). -/
def NormalDistribution.name (_ : NormalDistribution) : String := "normal"

/-- `NormalDistribution.params`: the ordered string-keyed mapping
`{"mean": str(self.mean), "variance": str(self.variance)}`. -/
def NormalDistribution.params (d : NormalDistribution) : List (String × PyVal) :=
  [("mean", .floatStr d.mean), ("variance", .floatStr d.variance)]

/-- `NormalDistribution.from_params` from `distributions.py`: exactly two
parameters, convert `params["mean"]` then `params["variance"]` with
`float`, reject a negative variance. -/
def NormalDistribution.from_params (params : List (String × PyVal)) :
    Except PyErr NormalDistribution :=
  if params.length ≠ 2 then
    .error (.valueError "Normal distribution must have 2 parameters: mean, variance")
  else
    match dictGet params "mean" with
    | .error e => .error e
    | .ok mv =>
      match pyFloat mv with
      | .error e => .error e
      | .ok mean =>
        match dictGet params "variance" with
        | .error e => .error e
        | .ok vv =>
          match pyFloat vv with
          | .error e => .error e
          | .ok var =>
            if var < 0 then .error (.valueError "Variance cannot be less than 0")
            else .ok ⟨mean, var⟩

/-- `Distribution.from_str` from `distributions.py`.  The Python `match`
has a case for `"normal"` and no other case, so an unrecognized name
falls through and the function returns `None`: the result is
`Option NormalDistribution`, with `Option.none` modelling Python's `None`. -/
def Distribution.from_str (name : PyVal) (params : List (String × PyVal)) :
    Except PyErr (Option NormalDistribution) :=
  match name with
  | .str "normal" => (NormalDistribution.from_params params).map Option.some
  | _ => .ok Option.none

/-- `itertools.accumulate`: running sums of a list, starting from `acc`. -/
def accumulate (acc : ℤ) : List ℤ → List ℤ
  | [] => []
  | x :: xs => (acc + x) :: accumulate (acc + x) xs

/-- `SampleDescription.changepoints` from `dataset_description.py`:
`list(accumulate(self._samples_length))[:-1]`. -/
def changepoints (lengths : List ℤ) : List ℤ :=
  (accumulate 0 lengths).dropLast

/-- `SampleDescription` from `dataset_description.py`.  The distributions
list holds `Option NormalDistribution` because `Distribution.from_str`
can deliver Python `None` (see `Distribution.from_str`). -/
structure SampleDescription where
  _name : String
  _samples_length : List ℤ
  _samples_distributions : List (Option NormalDistribution)

/-- `SampleDescription.__init__`: stores its arguments and asserts
`len(samples_length) == len(samples_distributions)`. -/
def SampleDescription.init (name : String) (lengths : List ℤ)
    (dists : List (Option NormalDistribution)) : Except PyErr SampleDescription :=
  if lengths.length = dists.length then .ok ⟨name, lengths, dists⟩
  else .error .assertionError

/-- `DatasetDescriptionBuilder` from `dataset_description.py`: three
optional staged fields, all `None` on creation. -/
structure DatasetDescriptionBuilder where
  _name : Option String := Option.none
  _samples_length : Option (List ℤ) := Option.none
  _samples_distributions : Option (List (Option NormalDistribution)) := Option.none

/-- `DatasetDescriptionBuilder.build`: `assert self._name`,
`assert self._samples_length`, `assert self._samples_distributions`
(each a Python truthiness check, so `None`, `""` and `[]` all fail),
assert the two lists have equal length, then construct the description. -/
def DatasetDescriptionBuilder.build (b : DatasetDescriptionBuilder) :
    Except PyErr SampleDescription :=
  match b._name with
  | Option.none => .error .assertionError
  | Option.some name =>
    if name = "" then .error .assertionError
    else
      match b._samples_length with
      | Option.none => .error .assertionError
      | Option.some lengths =>
        if lengths.isEmpty then .error .assertionError
        else
          match b._samples_distributions with
          | Option.none => .error .assertionError
          | Option.some dists =>
            if dists.isEmpty then .error .assertionError
            else if lengths.length ≠ dists.length then .error .assertionError
            else SampleDescription.init name lengths dists

/-- `NormalDistribution.scipy_sample`: `ss.norm.rvs(loc=mean,
scale=variance, size=length)`.  The backend's stream of standard draws is
the explicit argument `rng`; scipy rejects a negative `size` and returns
exactly `size` draws `loc + scale * z_i` otherwise. -/
def NormalDistribution.scipy_sample (d : NormalDistribution) (rng : ℕ → ℚ)
    (length : ℤ) : Except PyErr (List ℚ) :=
  if length < 0 then .error (.valueError "negative dimensions are not allowed")
  else .ok ((List.range length.toNat).map fun i => d.mean + d.variance * rng i)

/-- The sampler a distribution object offers the generator (the generator
is duck-typed over `d.scipy_sample`). -/
abbrev Sampler := ℤ → Except PyErr (List ℚ)

/-- Evaluate `[d.scipy_sample(l) for d, l in pairs]`: first exception
wins, otherwise the list of per-segment samples. -/
def mapSamples : List (Sampler × ℤ) → Except PyErr (List (List ℚ))
  | [] => .ok []
  | (d, l) :: rest =>
    match d l with
    | .error e => .error e
    | .ok xs =>
      match mapSamples rest with
      | .error e => .error e
      | .ok xss => .ok (xs :: xss)

/-- `ScipyDatasetGenerator.generate_sample` from `generator.py`:
`np.concatenate([d.scipy_sample(l) for d, l in zip(distributions,
lengths)])`.  `zip` stops at the shorter sequence; `np.concatenate`
raises on an empty list of arrays. -/
def generate_sample (distributions : List Sampler) (lengths : List ℤ) :
    Except PyErr (List ℚ) :=
  match mapSamples (distributions.zip lengths) with
  | .error e => .error e
  | .ok parts =>
    if parts.isEmpty then .error (.valueError "need at least one array to concatenate")
    else .ok parts.flatten

/-- The value classes an attribute of `SampleDescription` can hold. -/
inductive AttrVal where
  | strV (s : String)
  | intListV (l : List ℤ)
  | distListV (l : List (Option NormalDistribution))
  | methodV

/-- Python attribute lookup on a `SampleDescription` instance: the class
defines exactly the members `_name`, `_samples_length`,
`_samples_distributions`, the property `changepoints` and the method
`to_asciidoc`; any other name raises `AttributeError`. -/
def SampleDescription.getattr (d : SampleDescription) : String → Except PyErr AttrVal
  | "_name" => .ok (.strV d._name)
  | "_samples_length" => .ok (.intListV d._samples_length)
  | "_samples_distributions" => .ok (.distListV d._samples_distributions)
  | "changepoints" => .ok (.intListV (changepoints d._samples_length))
  | "to_asciidoc" => .ok .methodV
  | a => .error (.attributeError a)

/-- The body of `generate_dataset` in `main.py` for one description:
`sample = generator.generate_sample(descr.distributions, descr.length)`
evaluates the attribute accesses first; the hand-off to the saver (an
external sink outside `src/`) is modelled as a no-op reached only if the
attribute accesses succeed. -/
def generate_dataset_step (descr : SampleDescription) : Except PyErr Unit :=
  match descr.getattr "distributions" with
  | .error e => .error e
  | .ok _ =>
    match descr.getattr "length" with
    | .error e => .error e
    | .ok _ => .ok ()

/-- `generate_dataset` from `main.py`: iterate the parsed descriptions in
order; a raised exception aborts the whole loop. -/
def generate_dataset : List SampleDescription → Except PyErr Unit
  | [] => .ok ()
  | d :: ds =>
    match generate_dataset_step d with
    | .error e => .error e
    | .ok _ => generate_dataset ds

/-- The printed name of a Python type, as `f"{elements_type}"` renders it. -/
def pyTypeName : PyType → String
  | .int => "<class 'int'>"
  | .str => "<class 'str'>"
  | .list => "<class 'list'>"
  | .dict => "<class 'dict'>"

/-- `ConfigParser._validate_description_name`: the name must be truthy
(present and non-empty) and a string. -/
def _validate_description_name (i : ℕ) (name : PyVal) : Except PyErr Unit :=
  if truthy name = false then
    .error (.valueError ("Description #" ++ toString i ++ " does not contain a name"))
  else if isinstance name .str = false then
    .error (.typeError ("Description #" ++ toString i ++ " name is not string"))
  else .ok ()

/-- The element loop of `_validate_description_list_field`: each element
must be an instance of `ty` (the message always says `lengths`, as in the
source). -/
def checkElemTypes (i : ℕ) (ty : PyType) : ℕ → List PyVal → Except PyErr Unit
  | _, [] => .ok ()
  | j, x :: xs =>
    if isinstance x ty = false then
      .error (.typeError ("Description #" ++ toString i ++ " lengths[" ++ toString j
        ++ "] is not " ++ pyTypeName ty))
    else checkElemTypes i ty (j + 1) xs

/-- `ConfigParser._validate_description_list_field`: the field must be
truthy (present and non-empty), a list, and every element an instance of
`ty`.  No further condition is checked — in particular no positivity of
integer elements. -/
def _validate_description_list_field (i : ℕ) (lf : PyVal) (fname : String)
    (ty : PyType) : Except PyErr Unit :=
  if truthy lf = false then
    .error (.valueError ("Description #" ++ toString i ++ " does not contain a "
      ++ fname ++ " list for sub-samples"))
  else if isinstance lf .list = false then
    .error (.typeError ("Description #" ++ toString i ++ " " ++ fname ++ " is not list"))
  else
    match lf with
    | .list xs => checkElemTypes i ty 0 xs
    | _ => .ok ()

/-- The dict payload of a `PyVal` known to be a dict (the validator only
reaches this after `isinstance(·, dict)` has succeeded). -/
def pyDictOf : PyVal → List (String × PyVal)
  | .dict kvs => kvs
  | _ => []

/-- The final loop of `validate_config`: for each `(distr, prms)` in
`zip(distributions, params)`, run `Distribution.from_str` and wrap any
exception as `ValueError("Description #i distribution is invalid")`.
A `None` result is not an exception and passes. -/
def checkDistrs (i : ℕ) : List (PyVal × PyVal) → Except PyErr Unit
  | [] => .ok ()
  | (d, p) :: rest =>
    match Distribution.from_str d (pyDictOf p) with
    | .error _ => .error (.valueError ("Description #" ++ toString i ++ " distribution is invalid"))
    | .ok _ => checkDistrs i rest

/-- Validation of config entry `i` (the body of `validate_config`'s
loop), in source order: mapping check, name, lengths, distributions,
parameters, size equality, then the per-distribution factory check. -/
def validate_entry (i : ℕ) (descr : PyVal) : Except PyErr Unit :=
  match descr with
  | .dict kvs =>
    match _validate_description_name i (pyGet kvs "name") with
    | .error e => .error e
    | .ok _ =>
      match _validate_description_list_field i (pyGet kvs "lengths") "lengths" .int with
      | .error e => .error e
      | .ok _ =>
        match _validate_description_list_field i (pyGet kvs "distributions") "distributions" .str with
        | .error e => .error e
        | .ok _ =>
          match _validate_description_list_field i (pyGet kvs "parameters") "parameters" .dict with
          | .error e => .error e
          | .ok _ =>
            match pyGet kvs "lengths", pyGet kvs "distributions", pyGet kvs "parameters" with
            | .list ls, .list ds, .list ps =>
              if ¬ (ls.length = ds.length ∧ ds.length = ps.length) then
                .error (.valueError ("Description #" ++ toString i
                  ++ " size of lengths, distributions and parameters are not equal"))
              else checkDistrs i (ds.zip ps)
            | _, _, _ =>
              -- unreachable: the three list-field validations above
              -- guarantee the fields are lists
              .error (.typeError "unreachable")
  | _ => .error (.typeError ("Description #" ++ toString i ++ " is not a dictionary"))

/-- The indexed loop of `validate_config` over the entries. -/
def validate_entries (i : ℕ) : List PyVal → Except PyErr Unit
  | [] => .ok ()
  | d :: ds =>
    match validate_entry i d with
    | .error e => .error e
    | .ok _ => validate_entries (i + 1) ds

/-- `ConfigParser.validate_config` from `config_parser.py` (after YAML
deserialization): the config must be a list, and every entry must pass
`validate_entry`. -/
def validate_config (config : PyVal) : Except PyErr Unit :=
  match config with
  | .list entries => validate_entries 0 entries
  | _ => .error (.typeError "Config must be a list of dataset descriptions")

/-! ### Properties of `accumulate` and `changepoints` -/

theorem accumulate_length (a : ℤ) (l : List ℤ) :
    (accumulate a l).length = l.length := by
  induction l generalizing a with
  | nil => rfl
  | cons x xs ih => simp [accumulate, ih]

theorem accumulate_eq_map_range (a : ℤ) (l : List ℤ) :
    accumulate a l = (List.range l.length).map (fun k => a + (l.take (k + 1)).sum) := by
  induction l generalizing a with
  | nil => rfl
  | cons x xs ih =>
    simp only [accumulate, List.length_cons, List.range_succ_eq_map, List.map_cons,
      List.map_map]
    rw [ih (a + x)]
    congr 1
    · simp
    · apply List.map_congr_left
      intro k _
      simp [Function.comp, List.take_succ_cons, add_assoc]

theorem accumulate_pos_lt (a : ℤ) (l : List ℤ) (hpos : ∀ x ∈ l, 0 < x) :
    ∀ y ∈ accumulate a l, a < y := by
  induction l generalizing a with
  | nil => intro y hy; simp [accumulate] at hy
  | cons x xs ih =>
    intro y hy
    have hx : 0 < x := hpos x (by simp)
    rcases List.mem_cons.mp hy with h | h
    · omega
    · have := ih (a + x) (fun z hz => hpos z (by simp [hz])) y h
      omega

theorem accumulate_chain_lt (a : ℤ) (l : List ℤ) (hpos : ∀ x ∈ l, 0 < x) :
    List.Chain' (· < ·) (accumulate a l) := by
  induction l generalizing a with
  | nil => simp [accumulate]
  | cons x xs ih =>
    simp only [accumulate]
    apply List.chain'_cons'.mpr
    refine ⟨?_, ih (a + x) (fun z hz => hpos z (by simp [hz]))⟩
    intro y hy
    exact accumulate_pos_lt (a + x) xs (fun z hz => hpos z (by simp [hz])) y
      (List.mem_of_mem_head? hy)

/-- C4: for a non-empty list of positive segment lengths, `changepoints`
is the list of prefix sums of the lengths with the final (whole-length)
sum removed; consequently it has `len(segment_lengths) - 1` entries and
is strictly increasing. -/
theorem c4_changepoints_spec (l : List ℤ) (hne : l ≠ []) (hpos : ∀ x ∈ l, 0 < x) :
    changepoints l = (List.range (l.length - 1)).map (fun k => (l.take (k + 1)).sum)
    ∧ (changepoints l).length = l.length - 1
    ∧ List.Pairwise (· < ·) (changepoints l) := by
  refine ⟨?_, ?_, ?_⟩
  · rw [changepoints, accumulate_eq_map_range, List.dropLast_eq_take]
    simp only [List.length_map, List.length_range]
    rw [← List.map_take, List.take_range]
    have : min (l.length - 1) l.length = l.length - 1 := by omega
    rw [this]
    apply List.map_congr_left
    intro k _
    simp
  · rw [changepoints, List.length_dropLast, accumulate_length]
  · exact List.Pairwise.sublist (List.dropLast_sublist _)
      (List.chain'_iff_pairwise.mp (accumulate_chain_lt 0 l hpos))

/-- Witness for C4 at lengths `[20, 20, 10]`: changepoints `[20, 40]`. -/
theorem c4_changepoints_spec_witness :
    changepoints [20, 20, 10] = [20, 40]
    ∧ (changepoints [20, 20, 10] = (List.range 2).map (fun k => (([20, 20, 10] : List ℤ).take (k + 1)).sum)
        ∧ (changepoints [20, 20, 10]).length = 2
        ∧ List.Pairwise (· < ·) (changepoints [20, 20, 10])) :=
  ⟨by decide, c4_changepoints_spec [20, 20, 10] (by decide) (by decide)⟩

/-! ### Builder invariants -/

/-- C10: `DatasetDescriptionBuilder.build()` fails not only when a field
is unset but also when the name is the empty string or either list is
empty (the `assert` statements are truthiness checks), and every
`SampleDescription` it yields has a non-empty name, at least one
segment, and index-aligned lists of equal length. -/
theorem c10_build_truthiness_and_invariants (b : DatasetDescriptionBuilder) :
    (b._name = Option.some "" → b.build = .error .assertionError)
    ∧ (b._samples_length = Option.some [] → b.build = .error .assertionError)
    ∧ (b._samples_distributions = Option.some [] → b.build = .error .assertionError)
    ∧ (∀ d, b.build = .ok d →
        d._name ≠ "" ∧ d._samples_length ≠ []
        ∧ d._samples_length.length = d._samples_distributions.length) := by
  refine ⟨?_, ?_, ?_, ?_⟩
  · intro h
    simp [DatasetDescriptionBuilder.build, h]
  · intro h
    cases hn : b._name with
    | none => simp [DatasetDescriptionBuilder.build, hn]
    | some n =>
      by_cases hne : n = "" <;>
        simp [DatasetDescriptionBuilder.build, hn, hne, h]
  · intro h
    cases hn : b._name with
    | none => simp [DatasetDescriptionBuilder.build, hn]
    | some n =>
      by_cases hne : n = ""
      · simp [DatasetDescriptionBuilder.build, hn, hne]
      · cases hl : b._samples_length with
        | none => simp [DatasetDescriptionBuilder.build, hn, hne, hl]
        | some ls =>
          by_cases hle : ls.isEmpty <;>
            simp [DatasetDescriptionBuilder.build, hn, hne, hl, hle, h]
  · intro d h
    unfold DatasetDescriptionBuilder.build at h
    cases hn : b._name with
    | none => simp [hn] at h
    | some n =>
      simp only [hn] at h
      by_cases hne : n = ""
      · rw [if_pos hne] at h; exact absurd h (by simp)
      · rw [if_neg hne] at h
        cases hl : b._samples_length with
        | none => simp [hl] at h
        | some ls =>
          simp only [hl] at h
          by_cases hle : ls.isEmpty
          · rw [if_pos hle] at h; exact absurd h (by simp)
          · rw [if_neg hle] at h
            cases hd : b._samples_distributions with
            | none => simp [hd] at h
            | some ds =>
              simp only [hd] at h
              by_cases hde : ds.isEmpty
              · rw [if_pos hde] at h; exact absurd h (by simp)
              · rw [if_neg hde] at h
                by_cases hll : ls.length ≠ ds.length
                · rw [if_pos hll] at h; exact absurd h (by simp)
                · rw [if_neg hll] at h
                  unfold SampleDescription.init at h
                  push_neg at hll
                  rw [if_pos hll] at h
                  cases h
                  refine ⟨hne, ?_, hll⟩
                  intro hnil
                  have hls : ls = [] := hnil
                  rw [hls] at hle
                  exact hle rfl

/-- Witness for C10: a concrete builder with name `"A"`, lengths `[5]`
and one normal distribution builds successfully and the resulting
description satisfies the invariants. -/
theorem c10_build_truthiness_and_invariants_witness :
    (DatasetDescriptionBuilder.build
        ⟨Option.some "A", Option.some [5], Option.some [Option.some ⟨0, 1⟩]⟩
      = .ok ⟨"A", [5], [Option.some ⟨0, 1⟩]⟩)
    ∧ ("A" ≠ "" ∧ ([5] : List ℤ) ≠ []
        ∧ ([5] : List ℤ).length = [Option.some (⟨0, 1⟩ : NormalDistribution)].length) :=
  ⟨rfl, (c10_build_truthiness_and_invariants
      ⟨Option.some "A", Option.some [5], Option.some [Option.some ⟨0, 1⟩]⟩).2.2.2
    ⟨"A", [5], [Option.some ⟨0, 1⟩]⟩ rfl⟩

/-! ### Distribution construction and round-trip -/

theorem from_params_ok_variance_nonneg (p : List (String × PyVal))
    (v : NormalDistribution) (h : NormalDistribution.from_params p = .ok v) :
    0 ≤ v.variance := by
  unfold NormalDistribution.from_params at h
  split at h
  · exact absurd h (by simp)
  · cases hm : dictGet p "mean" with
    | error e => simp [hm] at h
    | ok mv =>
      simp only [hm] at h
      cases hfm : pyFloat mv with
      | error e => simp [hfm] at h
      | ok m =>
        simp only [hfm] at h
        cases hv : dictGet p "variance" with
        | error e => simp [hv] at h
        | ok vv =>
          simp only [hv] at h
          cases hfv : pyFloat vv with
          | error e => simp [hfv] at h
          | ok var =>
            simp only [hfv] at h
            by_cases hneg : var < 0
            · rw [if_pos hneg] at h; exact absurd h (by simp)
            · rw [if_neg hneg] at h
              cases h
              simpa using le_of_not_lt hneg

theorem from_params_of_params (v : NormalDistribution) (hv : 0 ≤ v.variance) :
    NormalDistribution.from_params v.params = .ok v := by
  have hm : dictGet v.params "mean" = .ok (.floatStr v.mean) := rfl
  have hva : dictGet v.params "variance" = .ok (.floatStr v.variance) := rfl
  unfold NormalDistribution.from_params
  rw [if_neg (by simp [NormalDistribution.params])]
  simp only [hm, hva, pyFloat]
  rw [if_neg (not_lt.mpr hv)]

/-- C6: feeding a successfully constructed normal distribution's `name`
and `params` back through `Distribution.from_str` succeeds and
reconstructs an instance with identical `params`. -/
theorem c6_params_roundtrip (p : List (String × PyVal)) (v : NormalDistribution)
    (h : NormalDistribution.from_params p = .ok v) :
    ∃ w, Distribution.from_str (.str v.name) v.params = .ok (Option.some w)
      ∧ w.params = v.params := by
  refine ⟨v, ?_, rfl⟩
  have hv : 0 ≤ v.variance := from_params_ok_variance_nonneg p v h
  show (NormalDistribution.from_params v.params).map Option.some = .ok (Option.some v)
  rw [from_params_of_params v hv]
  rfl

/-- Witness for C6 at params `{"mean": "0.0", "variance": "1.0"}`
(i.e. `str(0.0)` and `str(1.0)`). -/
theorem c6_params_roundtrip_witness :
    ∃ w, Distribution.from_str
        (.str (NormalDistribution.name ⟨0, 1⟩))
        (NormalDistribution.params ⟨0, 1⟩) = .ok (Option.some w)
      ∧ w.params = NormalDistribution.params ⟨0, 1⟩ :=
  c6_params_roundtrip [("mean", .floatStr 0), ("variance", .floatStr 1)] ⟨0, 1⟩ rfl

/-- The spec's "malformed parameter" class of failures: wrong parameter
count, a missing key, or a value that does not convert to a float —
everything except the semantic domain check on the variance. -/
def isMalformedParamError : PyErr → Bool
  | .keyError _ => true
  | .typeError "float() argument must be a string or a real number" => true
  | .valueError "Normal distribution must have 2 parameters: mean, variance" => true
  | .valueError "could not convert string to float" => true
  | _ => false

theorem dictGet_of_not_mem (d : List (String × PyVal)) (k : String)
    (h : k ∉ d.map Prod.fst) : dictGet d k = .error (.keyError k) := by
  unfold dictGet
  have : d.find? (fun kv => kv.1 = k) = Option.none := by
    apply List.find?_eq_none.mpr
    intro kv hkv
    simp only [decide_eq_true_eq]
    intro hk
    exact h (List.mem_map.mpr ⟨kv, hkv, hk⟩)
  rw [this]

theorem dictGet_of_mem (d : List (String × PyVal)) (k : String)
    (h : k ∈ d.map Prod.fst) : ∃ v, dictGet d k = .ok v := by
  unfold dictGet
  have hsome : (d.find? (fun kv => kv.1 = k)).isSome := by
    apply List.find?_isSome.mpr
    rcases List.mem_map.mp h with ⟨kv, hkv, hk⟩
    exact ⟨kv, hkv, by simp [hk]⟩
  rcases Option.isSome_iff_exists.mp hsome with ⟨kv, hkv⟩
  exact ⟨kv.2, by rw [hkv]⟩

theorem pyFloat_ok_or_malformed (v : PyVal) :
    (∃ q, pyFloat v = .ok q)
    ∨ (∃ e, pyFloat v = .error e ∧ isMalformedParamError e = true) := by
  cases v with
  | floatStr q => exact Or.inl ⟨q, rfl⟩
  | int n => exact Or.inl ⟨(n : ℚ), rfl⟩
  | str s =>
    cases hp : parseDec s with
    | none =>
      refine Or.inr ⟨.valueError "could not convert string to float", ?_, rfl⟩
      simp [pyFloat, hp]
    | some q => exact Or.inl ⟨q, by simp [pyFloat, hp]⟩
  | none => exact Or.inr ⟨_, rfl, rfl⟩
  | list xs => exact Or.inr ⟨_, rfl, rfl⟩
  | dict kvs => exact Or.inr ⟨_, rfl, rfl⟩

/-- C7: normal construction enforces the `{mean, variance}` schema — for
every parameter mapping (with distinct keys, as a Python dict has) whose
key set is not exactly `{"mean", "variance"}`, and in particular for
every mapping missing a required key, `from_params` fails with a
malformed-parameter error. -/
theorem c7_schema_enforced (p : List (String × PyVal))
    (hnd : (p.map Prod.fst).Nodup)
    (h : ¬ ("mean" ∈ p.map Prod.fst ∧ "variance" ∈ p.map Prod.fst ∧ p.length = 2)) :
    ∃ e, NormalDistribution.from_params p = .error e
      ∧ isMalformedParamError e = true := by
  by_cases hlen : p.length = 2
  · have hkey : "mean" ∉ p.map Prod.fst ∨ "variance" ∉ p.map Prod.fst := by
      by_contra hc
      push_neg at hc
      exact h ⟨hc.1, hc.2, hlen⟩
    unfold NormalDistribution.from_params
    rw [if_neg (by omega)]
    rcases hkey with hmean | hvar
    · simp only [dictGet_of_not_mem p "mean" hmean]
      exact ⟨.keyError "mean", rfl, rfl⟩
    · by_cases hmean : "mean" ∈ p.map Prod.fst
      · rcases dictGet_of_mem p "mean" hmean with ⟨mv, hmv⟩
        simp only [hmv]
        rcases pyFloat_ok_or_malformed mv with ⟨q, hq⟩ | ⟨e, he, hmal⟩
        · simp only [hq, dictGet_of_not_mem p "variance" hvar]
          exact ⟨.keyError "variance", rfl, rfl⟩
        · simp only [he]
          exact ⟨e, rfl, hmal⟩
      · simp only [dictGet_of_not_mem p "mean" hmean]
        exact ⟨.keyError "mean", rfl, rfl⟩
  · unfold NormalDistribution.from_params
    rw [if_pos (by omega)]
    exact ⟨.valueError "Normal distribution must have 2 parameters: mean, variance", rfl, rfl⟩

/-- Witness for C7 at the spec's example `{"mean": "0.0"}`. -/
theorem c7_schema_enforced_witness :
    ∃ e, NormalDistribution.from_params [("mean", .str "0.0")] = .error e
      ∧ isMalformedParamError e = true :=
  c7_schema_enforced [("mean", .str "0.0")] (by simp) (by simp)

/-- C8: parameters with a negative variance fail with the domain error
`"Variance cannot be less than 0"`, which is not a malformed-parameter
error, and no distribution instance is returned (no silent clamp). -/
theorem c8_negative_variance_domain_error (p : List (String × PyVal))
    (mv vv : PyVal) (m v : ℚ)
    (hlen : p.length = 2)
    (hm : dictGet p "mean" = .ok mv) (hfm : pyFloat mv = .ok m)
    (hv : dictGet p "variance" = .ok vv) (hfv : pyFloat vv = .ok v)
    (hneg : v < 0) :
    NormalDistribution.from_params p
        = .error (.valueError "Variance cannot be less than 0")
    ∧ isMalformedParamError (.valueError "Variance cannot be less than 0") = false
    ∧ ∀ d, NormalDistribution.from_params p ≠ .ok d := by
  have hmain : NormalDistribution.from_params p
      = .error (.valueError "Variance cannot be less than 0") := by
    unfold NormalDistribution.from_params
    rw [if_neg (by omega)]
    simp only [hm, hfm, hv, hfv]
    rw [if_pos hneg]
  refine ⟨hmain, rfl, ?_⟩
  intro d hd
  rw [hmain] at hd
  exact absurd hd (by simp)

/-- Witness for C8 at the spec's example
`{"mean": "0.0", "variance": "-1.0"}` (`str(0.0)`, `str(-1.0)`). -/
theorem c8_negative_variance_domain_error_witness :
    NormalDistribution.from_params [("mean", .floatStr 0), ("variance", .floatStr (-1))]
        = .error (.valueError "Variance cannot be less than 0")
    ∧ isMalformedParamError (.valueError "Variance cannot be less than 0") = false
    ∧ ∀ d, NormalDistribution.from_params
        [("mean", .floatStr 0), ("variance", .floatStr (-1))] ≠ .ok d :=
  c8_negative_variance_domain_error
    [("mean", .floatStr 0), ("variance", .floatStr (-1))]
    (.floatStr 0) (.floatStr (-1)) 0 (-1) rfl rfl rfl rfl rfl (by decide)

/-! ### Unknown distribution names (factory fall-through) -/

/-- C1 (documented divergence): `Distribution.from_str` on an
unrecognized name such as `"poisson"` raises no "unknown distribution"
error — the `match` has no default case, so the call returns `None` —
and consequently `validate_config` accepts a config whose entry lists
the distribution `"poisson"` instead of failing. -/
theorem c1_unknown_distribution_not_rejected :
    (∀ params, Distribution.from_str (.str "poisson") params = .ok Option.none)
    ∧ validate_config (.list [.dict [("name", .str "A"),
        ("lengths", .list [.int 10]),
        ("distributions", .list [.str "poisson"]),
        ("parameters", .list [.dict []])]]) = .ok () :=
  ⟨fun _ => rfl, rfl⟩

/-! ### The pipeline driver's attribute accesses -/

/-- C3 (documented divergence): `generate_dataset` in `main.py` reads
`descr.distributions` and `descr.length`, but `SampleDescription`
defines neither attribute, so the driver raises `AttributeError` on the
first description instead of invoking the generator. -/
theorem c3_driver_attribute_error :
    (∀ d : SampleDescription,
        d.getattr "distributions" = .error (.attributeError "distributions")
        ∧ d.getattr "length" = .error (.attributeError "length"))
    ∧ (∀ (d : SampleDescription) (ds : List SampleDescription),
        generate_dataset (d :: ds) = .error (.attributeError "distributions")) :=
  ⟨fun _ => ⟨rfl, rfl⟩, fun _ _ => rfl⟩

/-! ### What the validator guarantees about `lengths` -/

/-- An otherwise well-formed config entry named `"A"` whose `lengths`
value is the given list of integers, aligned with one `"normal"`
distribution with parameters `{"mean": "0.0", "variance": "1.0"}` per
segment. -/
def mkLenEntry (ns : List ℤ) : PyVal :=
  .dict [("name", .str "A"),
    ("lengths", .list (ns.map PyVal.int)),
    ("distributions", .list (ns.map fun _ => .str "normal")),
    ("parameters", .list (ns.map fun _ =>
      .dict [("mean", .floatStr 0), ("variance", .floatStr 1)]))]

/-- Counterexample to C9: `validate_config` accepts an entry whose
`lengths` contains `0`, and one whose `lengths` contains `-5` — zero or
negative lengths are not rejected during validation. -/
theorem c9_counterexample_nonpositive_length_accepted :
    validate_config (.list [mkLenEntry [0]]) = .ok ()
    ∧ validate_config (.list [mkLenEntry [-5]]) = .ok () :=
  ⟨rfl, rfl⟩

theorem checkElemTypes_ok (i : ℕ) (ty : PyType) (j : ℕ) (xs : List PyVal)
    (h : checkElemTypes i ty j xs = .ok ()) : ∀ x ∈ xs, isinstance x ty = true := by
  induction xs generalizing j with
  | nil => simp
  | cons y ys ih =>
    intro x hx
    unfold checkElemTypes at h
    by_cases hy : isinstance y ty = false
    · rw [if_pos hy] at h
      exact absurd h (by simp)
    · rw [if_neg hy] at h
      rcases List.mem_cons.mp hx with hxy | hxs
      · rw [hxy]
        exact eq_true_of_ne_false hy
      · exact ih (j + 1) h x hxs

theorem validate_list_field_ok (i : ℕ) (lf : PyVal) (fn : String) (ty : PyType)
    (h : _validate_description_list_field i lf fn ty = .ok ()) :
    ∃ xs, lf = .list xs ∧ xs ≠ [] ∧ ∀ x ∈ xs, isinstance x ty = true := by
  unfold _validate_description_list_field at h
  by_cases ht : truthy lf = false
  · rw [if_pos ht] at h
    exact absurd h (by simp)
  · rw [if_neg ht] at h
    by_cases hl : isinstance lf .list = false
    · rw [if_pos hl] at h
      exact absurd h (by simp)
    · rw [if_neg hl] at h
      cases lf with
      | list xs =>
        refine ⟨xs, rfl, ?_, checkElemTypes_ok i ty 0 xs h⟩
        intro hnil
        rw [hnil] at ht
        exact ht rfl
      | none => exact absurd rfl hl
      | int n => exact absurd rfl hl
      | str s => exact absurd rfl hl
      | floatStr q => exact absurd rfl hl
      | dict kvs => exact absurd rfl hl

theorem validate_entry_ok_lengths (i : ℕ) (d : PyVal)
    (h : validate_entry i d = .ok ()) :
    ∃ kvs ls, d = .dict kvs ∧ pyGet kvs "lengths" = .list ls ∧ ls ≠ []
      ∧ ∀ x ∈ ls, ∃ n : ℤ, x = .int n := by
  cases d with
  | dict kvs =>
    unfold validate_entry at h
    cases hn : _validate_description_name i (pyGet kvs "name") with
    | error e => simp [hn] at h
    | ok u =>
      simp only [hn] at h
      cases hl : _validate_description_list_field i (pyGet kvs "lengths") "lengths" .int with
      | error e => simp [hl] at h
      | ok u =>
        rcases validate_list_field_ok i (pyGet kvs "lengths") "lengths" .int hl
          with ⟨ls, hls, hne, hint⟩
        refine ⟨kvs, ls, rfl, hls, hne, ?_⟩
        intro x hx
        have := hint x hx
        cases x with
        | int n => exact ⟨n, rfl⟩
        | none => simp [isinstance] at this
        | str s => simp [isinstance] at this
        | floatStr q => simp [isinstance] at this
        | list xs => simp [isinstance] at this
        | dict kvs2 => simp [isinstance] at this
  | none => simp [validate_entry] at h
  | int n => simp [validate_entry] at h
  | str s => simp [validate_entry] at h
  | floatStr q => simp [validate_entry] at h
  | list xs => simp [validate_entry] at h

theorem validate_entries_ok (i : ℕ) (ds : List PyVal)
    (h : validate_entries i ds = .ok ()) (d : PyVal) (hd : d ∈ ds) :
    ∃ j, validate_entry j d = .ok () := by
  induction ds generalizing i with
  | nil => simp at hd
  | cons x xs ih =>
    unfold validate_entries at h
    cases hx : validate_entry i x with
    | error e => simp [hx] at h
    | ok u =>
      simp only [hx] at h
      rcases List.mem_cons.mp hd with hdx | hdxs
      · exact ⟨i, by rw [hdx]; rw [hx]⟩
      · exact ih (i + 1) h hdxs

/-- C9 amended: every config entry accepted by the validator has a
`lengths` field that is a non-empty list of integers, but positivity is
not checked — an otherwise-valid entry whose `lengths` is `[n]` passes
validation for every integer `n`, including zero and negative values. -/
theorem c9_accepted_lengths_are_int_lists (entries : List PyVal)
    (h : validate_config (.list entries) = .ok ()) :
    (∀ d ∈ entries, ∃ kvs ls, d = .dict kvs ∧ pyGet kvs "lengths" = .list ls
      ∧ ls ≠ [] ∧ ∀ x ∈ ls, ∃ n : ℤ, x = .int n)
    ∧ (∀ n : ℤ, validate_config (.list [mkLenEntry [n]]) = .ok ()) := by
  refine ⟨?_, fun n => rfl⟩
  intro d hd
  rcases validate_entries_ok 0 entries h d hd with ⟨j, hj⟩
  exact validate_entry_ok_lengths j d hj

/-- Witness for C9's amended claim: the config `[mkLenEntry [-5]]` is
accepted and its entry's `lengths` is the non-empty integer list
`[-5]`. -/
theorem c9_accepted_lengths_are_int_lists_witness :
    (∃ kvs ls, mkLenEntry [-5] = PyVal.dict kvs ∧ pyGet kvs "lengths" = .list ls
      ∧ ls ≠ [] ∧ ∀ x ∈ ls, ∃ n : ℤ, x = .int n)
    ∧ validate_config (.list [mkLenEntry [0]]) = .ok () :=
  ⟨(c9_accepted_lengths_are_int_lists [mkLenEntry [-5]] rfl).1 (mkLenEntry [-5])
      (by simp),
    (c9_accepted_lengths_are_int_lists [mkLenEntry [-5]] rfl).2 0⟩

/-! ### Generator: segment concatenation -/

theorem scipy_sample_ok (d : NormalDistribution) (rng : ℕ → ℚ) (l : ℤ)
    (hl : 0 ≤ l) :
    ∃ xs, d.scipy_sample rng l = .ok xs ∧ xs.length = l.toNat := by
  refine ⟨(List.range l.toNat).map fun i => d.mean + d.variance * rng i, ?_, by simp⟩
  unfold NormalDistribution.scipy_sample
  rw [if_neg (not_lt.mpr hl)]

theorem zip_map_snd (l₁ : List Sampler) (l₂ : List ℤ) :
    ((l₁.zip l₂).map Prod.snd) = l₂.take (min l₁.length l₂.length) := by
  induction l₁ generalizing l₂ with
  | nil => simp
  | cons a t ih =>
    cases l₂ with
    | nil => simp
    | cons b t2 => simp [List.zip_cons_cons, ih, Nat.succ_min_succ]

theorem mapSamples_ok (pairs : List (Sampler × ℤ))
    (hok : ∀ p ∈ pairs, ∃ xs, p.1 p.2 = .ok xs ∧ xs.length = p.2.toNat) :
    ∃ parts, mapSamples pairs = .ok parts
      ∧ parts.map List.length = pairs.map (fun p => p.2.toNat) := by
  induction pairs with
  | nil => exact ⟨[], rfl, rfl⟩
  | cons p ps ih =>
    obtain ⟨d, l⟩ := p
    rcases hok (d, l) (by simp) with ⟨xs, hxs, hlen⟩
    rcases ih (fun q hq => hok q (List.mem_cons_of_mem _ hq)) with ⟨parts, hparts, hplen⟩
    refine ⟨xs :: parts, ?_, ?_⟩
    · unfold mapSamples
      rw [show d l = .ok xs from hxs, hparts]
    · simp only [List.map_cons]
      rw [hplen, show xs.length = l.toNat from hlen]

theorem generate_sample_eq (dists : List Sampler) (lengths : List ℤ)
    (parts : List (List ℚ))
    (hmap : mapSamples (dists.zip lengths) = .ok parts)
    (hne : parts ≠ []) :
    generate_sample dists lengths = .ok parts.flatten := by
  unfold generate_sample
  simp only [hmap]
  rw [if_neg (by simpa using hne)]

theorem flatten_take_drop (parts : List (List ℚ)) (j : ℕ) (hj : j < parts.length) :
    (parts.flatten.drop ((parts.take j).map List.length).sum).take
        (parts.get ⟨j, hj⟩).length
      = parts.get ⟨j, hj⟩ := by
  induction parts generalizing j with
  | nil => simp at hj
  | cons p ps ih =>
    cases j with
    | zero => simp [List.take_left]
    | succ k =>
      have hk : k < ps.length := by simpa using hj
      simp only [List.flatten_cons, List.take_succ_cons, List.map_cons, List.sum_cons,
        List.get_cons_succ]
      rw [List.drop_append]
      exact ih k hk

theorem sum_toNat_cast (l : List ℤ) (h : ∀ x ∈ l, 0 ≤ x) :
    l.sum = ((l.map Int.toNat).sum : ℤ) := by
  induction l with
  | nil => rfl
  | cons x xs ih =>
    simp only [List.sum_cons, List.map_cons]
    rw [ih (fun y hy => h y (by simp [hy]))]
    have hx := h x (by simp)
    push_cast
    omega

theorem changepoints_get (lengths : List ℤ) (j : ℕ)
    (hj : j < (changepoints lengths).length) :
    (changepoints lengths).get ⟨j, hj⟩ = (lengths.take (j + 1)).sum := by
  have hlen : j < (accumulate 0 lengths).length := by
    have := hj
    unfold changepoints at this
    simp only [List.length_dropLast] at this
    omega
  have h1 : (changepoints lengths).get ⟨j, hj⟩ = (accumulate 0 lengths)[j] := by
    unfold changepoints
    exact List.getElem_dropLast _ j hj
  rw [h1, List.getElem_of_eq (accumulate_eq_map_range 0 lengths) hlen]
  simp

/-- C5: for index-aligned sequences of equal length (pair non-empty,
lengths non-negative), `generate_sample` succeeds with the flat
concatenation of the per-segment samples: total length `sum(lengths)`
(a zero length contributes an empty segment, not an error), segment `j`
occupying exactly the indices from the sum of the previous `j` lengths
to that sum plus its own length, and each changepoint equalling the
corresponding segment boundary. -/
theorem c5_generate_sample_layout (dists : List Sampler) (lengths : List ℤ)
    (hlen : dists.length = lengths.length) (hne : lengths ≠ [])
    (hnn : ∀ l ∈ lengths, 0 ≤ l)
    (hok : ∀ d ∈ dists, ∀ l : ℤ, 0 ≤ l → ∃ xs, d l = .ok xs ∧ xs.length = l.toNat) :
    ∃ parts, mapSamples (dists.zip lengths) = .ok parts
      ∧ generate_sample dists lengths = .ok parts.flatten
      ∧ parts.flatten.length = (lengths.map Int.toNat).sum
      ∧ parts.map List.length = lengths.map Int.toNat
      ∧ (∀ j (hj : j < parts.length),
          (parts.flatten.drop ((lengths.take j).map Int.toNat).sum).take
              (parts.get ⟨j, hj⟩).length
            = parts.get ⟨j, hj⟩)
      ∧ (∀ j (hj : j < (changepoints lengths).length),
          (changepoints lengths).get ⟨j, hj⟩
            = (((lengths.take (j + 1)).map Int.toNat).sum : ℤ)) := by
  have hpair : ∀ p ∈ dists.zip lengths, ∃ xs, p.1 p.2 = .ok xs ∧ xs.length = p.2.toNat := by
    intro p hp
    obtain ⟨d, l⟩ := p
    have hmem := List.of_mem_zip hp
    exact hok d hmem.1 l (hnn l hmem.2)
  rcases mapSamples_ok _ hpair with ⟨parts, hmap, hplen⟩
  have hsnd : (dists.zip lengths).map (fun p => p.2.toNat) = lengths.map Int.toNat := by
    have hcomp : (dists.zip lengths).map (fun p => p.2.toNat)
        = ((dists.zip lengths).map Prod.snd).map Int.toNat := by
      rw [List.map_map]; rfl
    rw [hcomp, zip_map_snd, hlen, min_self, List.take_length]
  rw [hsnd] at hplen
  have hpartslen : parts.length = lengths.length := by
    have := congrArg List.length hplen
    simpa using this
  have hpartsne : parts ≠ [] := by
    intro hnil
    apply hne
    apply List.length_eq_zero.mp
    rw [← hpartslen, hnil]
    rfl
  refine ⟨parts, hmap, generate_sample_eq _ _ _ hmap hpartsne, ?_, hplen, ?_, ?_⟩
  · rw [List.length_flatten, hplen]
  · intro j hj
    have hext := flatten_take_drop parts j hj
    have hoff : ((parts.take j).map List.length).sum
        = ((lengths.take j).map Int.toNat).sum := by
      rw [List.map_take, hplen, ← List.map_take]
    rw [hoff] at hext
    exact hext
  · intro j hj
    rw [changepoints_get lengths j hj]
    exact sum_toNat_cast _ (fun x hx => hnn x (List.mem_of_mem_take hx))

/-- A concrete sampler: the normal distribution with mean 0 and variance
parameter 1, drawn through a zero stream of standard draws. -/
def constNormalSampler : Sampler :=
  NormalDistribution.scipy_sample ⟨0, 1⟩ (fun _ => 0)

/-- Witness for C5 with two normal segments of lengths 2 and 0: the zero
length contributes an empty segment and is not an error. -/
theorem c5_generate_sample_layout_witness :
    ∃ parts, mapSamples ([constNormalSampler, constNormalSampler].zip [2, 0]) = .ok parts
      ∧ generate_sample [constNormalSampler, constNormalSampler] [2, 0] = .ok parts.flatten
      ∧ parts.flatten.length = (([2, 0] : List ℤ).map Int.toNat).sum
      ∧ parts.map List.length = ([2, 0] : List ℤ).map Int.toNat
      ∧ (∀ j (hj : j < parts.length),
          (parts.flatten.drop ((([2, 0] : List ℤ).take j).map Int.toNat).sum).take
              (parts.get ⟨j, hj⟩).length
            = parts.get ⟨j, hj⟩)
      ∧ (∀ j (hj : j < (changepoints [2, 0]).length),
          (changepoints [2, 0]).get ⟨j, hj⟩
            = (((([2, 0] : List ℤ).take (j + 1)).map Int.toNat).sum : ℤ)) :=
  c5_generate_sample_layout [constNormalSampler, constNormalSampler] [2, 0]
    rfl (by decide) (by decide)
    (by
      intro d hd l hl
      have hds : d = constNormalSampler := by simpa using hd
      rw [hds]
      exact scipy_sample_ok ⟨0, 1⟩ (fun _ => 0) l hl)

/-- Counterexample to C2: with one distribution and two lengths
(misaligned inputs), `generate_sample` raises no "misaligned inputs"
error — it returns the single truncated segment of length
`lengths[0] = 1`, not `sum(lengths) = 6`. -/
theorem c2_counterexample_no_misaligned_error :
    generate_sample [constNormalSampler] [1, 5] = .ok [(0 : ℚ) + 1 * 0]
    ∧ [(0 : ℚ) + 1 * 0].length = 1 :=
  ⟨rfl, rfl⟩

/-- C2 amended: `generate_sample` performs no alignment check — when
`len(distributions) != len(lengths)` it raises no error and silently
truncates to the shorter sequence (`zip` semantics), returning a sample
of total length `sum(lengths[:min(len(distributions), len(lengths))])`. -/
theorem c2_generate_sample_truncates (dists : List Sampler) (lengths : List ℤ)
    (hmis : dists.length ≠ lengths.length) (hd : dists ≠ []) (hl : lengths ≠ [])
    (hnn : ∀ l ∈ lengths, 0 ≤ l)
    (hok : ∀ d ∈ dists, ∀ l : ℤ, 0 ≤ l → ∃ xs, d l = .ok xs ∧ xs.length = l.toNat) :
    ∃ out, generate_sample dists lengths = .ok out
      ∧ out.length
        = ((lengths.take (min dists.length lengths.length)).map Int.toNat).sum := by
  have hpair : ∀ p ∈ dists.zip lengths, ∃ xs, p.1 p.2 = .ok xs ∧ xs.length = p.2.toNat := by
    intro p hp
    obtain ⟨d, l⟩ := p
    have hmem := List.of_mem_zip hp
    exact hok d hmem.1 l (hnn l hmem.2)
  rcases mapSamples_ok _ hpair with ⟨parts, hmap, hplen⟩
  have hsnd : (dists.zip lengths).map (fun p => p.2.toNat)
      = (lengths.take (min dists.length lengths.length)).map Int.toNat := by
    have hcomp : (dists.zip lengths).map (fun p => p.2.toNat)
        = ((dists.zip lengths).map Prod.snd).map Int.toNat := by
      rw [List.map_map]; rfl
    rw [hcomp, zip_map_snd]
  rw [hsnd] at hplen
  have hpartsne : parts ≠ [] := by
    intro hnil
    rw [hnil] at hplen
    have h1 : dists.length ≠ 0 := fun h => hd (List.length_eq_zero.mp h)
    have h2 : lengths.length ≠ 0 := fun h => hl (List.length_eq_zero.mp h)
    have hcl := congrArg List.length hplen
    simp [List.length_take] at hcl
    omega
  refine ⟨parts.flatten, generate_sample_eq _ _ _ hmap hpartsne, ?_⟩
  rw [List.length_flatten, hplen]

/-- Witness for C2's amended claim at one distribution and lengths
`[1, 5]`: the output has length 1. -/
theorem c2_generate_sample_truncates_witness :
    ∃ out, generate_sample [constNormalSampler] [1, 5] = .ok out
      ∧ out.length
        = ((([1, 5] : List ℤ).take
            (min [constNormalSampler].length ([1, 5] : List ℤ).length)).map Int.toNat).sum :=
  c2_generate_sample_truncates [constNormalSampler] [1, 5]
    (by decide) (List.cons_ne_nil _ _) (by decide) (by decide)
    (by
      intro d hd l hl
      have hds : d = constNormalSampler := by simpa using hd
      rw [hds]
      exact scipy_sample_ok ⟨0, 1⟩ (fun _ => 0) l hl)
